import Mathlib

/-!
Verification of the `mongoose-currency-convert` repository.

This file gives a shallow embedding, in Lean 4, of the library's core:
the nested-path accessor (`getNestedValue` / `setNestedValue` in
`src/utils/helpers.ts`), the currency-code validator
(`isValidCurrencyCode`), the default rounding function (`defaultRound`),
and the conversion orchestrator (`applyCurrencyConversion` inside
`currencyConversionPlugin`, `src/index.ts`).

Modelling conventions:
- JavaScript numbers are modelled as `JSNum`: either the NaN sentinel or
  an exact rational.  Arithmetic is exact (no IEEE-754 rounding); the
  infinities are not modelled (no claim in this development involves
  them).
- JavaScript values are modelled by the inductive `JSValue`.  Plain
  objects and the expando properties of arrays are association lists in
  insertion order; array elements are a list, padded with `vUndefined`
  for holes, matching how hole reads behave.
- The compiled package runs in strict mode (TypeScript emits strict
  module code, and the package ships an ES-module build), so assigning a
  property on a primitive value throws a `TypeError`; `setNestedValue`
  therefore returns an `Option JSValue`, with `none` marking such a
  throw.  Partial intermediate-container creation performed before the
  throwing assignment is dropped by the model; no claim inspects a
  document after a throwing set.
- Asynchrony is irrelevant to the claims (the orchestrator awaits every
  suspension point, processing fields strictly sequentially), so the
  `async` pipeline is modelled by ordinary sequential state passing.
- `Date` objects are modelled by their epoch-milliseconds value.
  Parsing of date *strings* is not modelled (no claim depends on it);
  `new Date(string)` is mapped to epoch 0.  The cache-key day component
  `toISOString().slice(0, 10)` is modelled as the epoch-day number,
  which preserves the load-bearing property: two conversion dates give
  the same key component exactly when they fall on the same UTC day.
-/

/-- A JavaScript number: NaN or an exact rational. -/
inductive JSNum where
  | nan
  | num (q : ℚ)
deriving DecidableEq, Repr

/-- Number.isNaN. -/
def JSNum.isNaN : JSNum → Bool
  | .nan => true
  | .num _ => false

/-- JavaScript falsiness of a number: 0 and NaN are falsy.  (Rationals
have no negative zero.) -/
def JSNum.falsy : JSNum → Bool
  | .nan => true
  | .num q => q == 0

/-- JavaScript multiplication: NaN is absorbing. -/
def JSNum.mul : JSNum → JSNum → JSNum
  | .nan, _ => .nan
  | _, .nan => .nan
  | .num a, .num b => .num (a * b)

/-- JavaScript division; NaN is absorbing.  Division by zero yields NaN
here; the code only ever divides by 100, so the infinite results of
JavaScript division by zero never arise. -/
def JSNum.div : JSNum → JSNum → JSNum
  | .nan, _ => .nan
  | _, .nan => .nan
  | .num a, .num b => if b == 0 then .nan else .num (a / b)

/-- A JavaScript value, as traversed by the path accessor.  `vArr`
carries both the indexed elements and the expando (non-index) string
properties an array object can hold.  `vDate` is a `Date` object. -/
inductive JSValue where
  | vUndefined
  | vNull
  | vBool (b : Bool)
  | vNum (n : JSNum)
  | vStr (s : String)
  | vDate (ms : Int)
  | vObj (fields : List (String × JSValue))
  | vArr (elems : List JSValue) (props : List (String × JSValue))

/-- JavaScript truthiness. -/
def JSValue.truthy : JSValue → Bool
  | .vUndefined => false
  | .vNull => false
  | .vBool b => b
  | .vNum n => !n.falsy
  | .vStr s => s != ""
  | .vDate _ => true
  | .vObj _ => true
  | .vArr _ _ => true

/-- The loose test `x == null`, true exactly for `null` and `undefined`. -/
def JSValue.isNullish : JSValue → Bool
  | .vUndefined => true
  | .vNull => true
  | _ => false

/-- Whether `typeof x === "object" && x !== null` holds (arrays and
dates included). -/
def JSValue.isObjectLike : JSValue → Bool
  | .vObj _ => true
  | .vArr _ _ => true
  | .vDate _ => true
  | _ => false

/-! ### String-to-number coercion

The accessor decides between array indexing and property access with
`!Number.isNaN(Number(key))`, and the orchestrator coerces amounts with
`Number(amount)`.  `Number` on strings is modelled for optionally
signed decimal numerals with optional fractional part, after trimming
whitespace; the empty (or all-whitespace) string coerces to 0 as in
JavaScript.  Hexadecimal, exponent and `Infinity` forms are not
modelled — no claim involves such path segments or amounts.  The parse
result is kept in `Nat` components so that path traversal stays free of
rational arithmetic. -/

/-- Decimal digit test. -/
def isDigitChar (c : Char) : Bool := ('0' ≤ c) && (c ≤ '9')

/-- Whitespace as trimmed by `Number` (common ASCII subset). -/
def isJsSpace (c : Char) : Bool := c == ' ' || c == '\t' || c == '\n' || c == '\r'

/-- Value of a list of decimal digits. -/
def digitsVal (cs : List Char) : Nat := cs.foldl (fun a c => a * 10 + (c.toNat - 48)) 0

/-- A successfully parsed numeric literal: sign, integer part, and
fractional part given by its digits' value and count. -/
structure NumParse where
  neg : Bool
  intVal : Nat
  fracVal : Nat
  fracLen : Nat
deriving DecidableEq, Repr

/-- Parse an unsigned decimal numeral (digits, optionally a point and
more digits; at least one digit overall). -/
def parseUnsigned (cs : List Char) : Option NumParse :=
  let ip := cs.takeWhile isDigitChar
  match cs.dropWhile isDigitChar with
  | [] => if ip.isEmpty then none else some ⟨false, digitsVal ip, 0, 0⟩
  | '.' :: fr =>
    if fr.all isDigitChar && !(ip.isEmpty && fr.isEmpty) then
      some ⟨false, digitsVal ip, digitsVal fr, fr.length⟩
    else none
  | _ => none

/-- Parse a string as `Number(s)` does: `none` means NaN. -/
def jsParseNumber (s : String) : Option NumParse :=
  let t := ((s.data.dropWhile isJsSpace).reverse.dropWhile isJsSpace).reverse
  match t with
  | [] => some ⟨false, 0, 0, 0⟩
  | '+' :: cs => parseUnsigned cs
  | '-' :: cs => (parseUnsigned cs).map (fun p => { p with neg := true })
  | cs => parseUnsigned cs

/-- Rational value of a parsed numeral. -/
def NumParse.toRat (p : NumParse) : ℚ :=
  (if p.neg then (-1 : ℚ) else 1) * ((p.intVal : ℚ) + (p.fracVal : ℚ) / 10 ^ p.fracLen)

/-- The accessor's test `!Number.isNaN(Number(key))`. -/
def isNumericKey (s : String) : Bool := (jsParseNumber s).isSome

/-- When a numeric key denotes a canonical array index (a non-negative
integer), return it.  Other numeric keys (negative or fractional)
address ordinary string properties of the array object; the model's
arrays never hold such properties, see `getStep`/`setNestedGo`. -/
def natIndex (s : String) : Option Nat :=
  match jsParseNumber s with
  | some p => if p.fracVal = 0 && (!p.neg || p.intVal = 0) then some p.intVal else none
  | none => none

/-- Number(v) for a single primitive inside a one-element array, which
JavaScript coerces through its string form (so `[null]` and
`[undefined]` give 0 via the empty string, and booleans give NaN). -/
def jsToNumberSingle : JSValue → JSNum
  | .vNum n => n
  | .vStr s => match jsParseNumber s with
    | some p => .num p.toRat
    | none => .nan
  | .vNull => .num 0
  | .vUndefined => .num 0
  | _ => .nan

/-- Number(v): the coercion applied by the orchestrator to the source
amount.  Plain objects stringify to a non-numeric form and give NaN;
arrays coerce through joining, modelled for the empty and one-element
cases (longer arrays join with commas, which is never numeric for the
flat values arising here). -/
def jsToNumber : JSValue → JSNum
  | .vNum n => n
  | .vStr s => match jsParseNumber s with
    | some p => .num p.toRat
    | none => .nan
  | .vBool true => .num 1
  | .vBool false => .num 0
  | .vNull => .num 0
  | .vUndefined => .nan
  | .vDate ms => .num ms
  | .vObj _ => .nan
  | .vArr [] _ => .num 0
  | .vArr [e] _ => jsToNumberSingle e
  | .vArr _ _ => .nan

/-- String.prototype.toUpperCase, on the ASCII range used by currency
codes (identical to JavaScript there). -/
def jsToUpperCase (s : String) : String := String.mk (s.data.map Char.toUpper)

/-! ### Path accessor (`src/utils/helpers.ts`) -/

/-- Split a path string at every dot, as `path.split(".")` does
(`getPathArray`; the memoising `pathCache` only caches this pure
computation and returns defensive copies, so it is semantically
transparent and not modelled). -/
def splitDotGo : List Char → List Char → List String
  | [], acc => [String.mk acc.reverse]
  | '.' :: cs, acc => String.mk acc.reverse :: splitDotGo cs []
  | c :: cs, acc => splitDotGo cs (c :: acc)

/-- getPathArray (`helpers.ts`): dotted path string to segment list. -/
def getPathArray (s : String) : List String := splitDotGo s.data []

/-- Property read on an association-list object; missing keys read as
`undefined`. -/
def objGet (fs : List (String × JSValue)) (k : String) : JSValue :=
  match fs.find? (fun p => p.1 == k) with
  | some p => p.2
  | none => .vUndefined

/-- Property write on an association-list object, preserving insertion
order for existing keys. -/
def objSet (fs : List (String × JSValue)) (k : String) (v : JSValue) :
    List (String × JSValue) :=
  match fs with
  | [] => [(k, v)]
  | (k', v') :: rest => if k' == k then (k, v) :: rest else (k', v') :: objSet rest k v

/-- Array element read; holes and out-of-range reads give `undefined`. -/
def arrRead (l : List JSValue) (n : Nat) : JSValue := l.getD n .vUndefined

/-- Array element write `a[n] = v`: in range it replaces, out of range
it pads with holes (read back as `undefined`). -/
def arrWrite (l : List JSValue) (n : Nat) (v : JSValue) : List JSValue :=
  if n < l.length then l.set n v
  else (l ++ List.replicate (n - l.length) .vUndefined) ++ [v]

/-- One step of `getNestedValue`'s reduce: numeric-looking keys index
arrays, every other access is a property read. -/
def getStep (v : JSValue) (k : String) : JSValue :=
  match v with
  | .vObj fs => objGet fs k
  | .vArr elems props =>
    if isNumericKey k then
      match natIndex k with
      | some n => arrRead elems n
      | none => .vUndefined
    else objGet props k
  | _ => .vUndefined

/-- getNestedValue (`helpers.ts`): walk the segments; any step at a
non-object (or falsy) value yields `undefined` without throwing. -/
def getNestedValue : JSValue → List String → JSValue
  | v, [] => v
  | v, k :: ks =>
    if v.truthy && v.isObjectLike then getNestedValue (getStep v k) ks
    else .vUndefined

/-- The body of `setNestedValue` after popping the last segment: walk
the intermediate segments, creating `{}` at each missing or non-object
location (for an array container and a truthy slot the code keeps the
slot as-is, even when it is a primitive), then assign at the last
segment.  `none` models the strict-mode `TypeError` raised when the
walk ends up assigning a property on a primitive.  Numeric keys that
are not canonical array indices would address expando properties of the
array through their stringified numeric value; the model does not
represent that rename and returns `none` there (unreachable for the
paths in every claim). -/
def setNestedGo : JSValue → List String → String → JSValue → Option JSValue
  | target, [], last, value =>
    match target with
    | .vObj fs => some (.vObj (objSet fs last value))
    | .vArr elems props =>
      if isNumericKey last then
        match natIndex last with
        | some n => some (.vArr (arrWrite elems n value) props)
        | none => none
      else some (.vArr elems (objSet props last value))
    | _ => none
  | target, k :: ks, last, value =>
    match target with
    | .vObj fs =>
      let child := objGet fs k
      let child' := if child.isObjectLike then child else .vObj []
      (setNestedGo child' ks last value).map (fun c2 => .vObj (objSet fs k c2))
    | .vArr elems props =>
      if isNumericKey k then
        match natIndex k with
        | some n =>
          let child := arrRead elems n
          let child' := if child.truthy then child else .vObj []
          (setNestedGo child' ks last value).map
            (fun c2 => .vArr (arrWrite elems n c2) props)
        | none => none
      else
        let child := objGet props k
        let child' := if child.isObjectLike then child else .vObj []
        (setNestedGo child' ks last value).map
          (fun c2 => .vArr elems (objSet props k c2))
    | _ => none

/-- setNestedValue (`helpers.ts`): pop the last segment; a missing or
empty last segment makes the whole call a no-op. -/
def setNestedValue (v : JSValue) (keys : List String) (value : JSValue) : Option JSValue :=
  match keys.getLast? with
  | none => some v
  | some last => if last = "" then some v else setNestedGo v keys.dropLast last value

/-! ### Rounding and currency validation (`src/utils/helpers.ts`) -/

/-- Math.round: floor of x + 1/2 (ties go toward positive infinity),
NaN propagates. -/
def jsMathRound : JSNum → JSNum
  | .nan => .nan
  | .num q => .num (⌊q + 1 / 2⌋ : ℤ)

/-- defaultRound (`helpers.ts`): `Math.round(value * 100) / 100`. -/
def defaultRound (value : JSNum) : JSNum :=
  JSNum.div (jsMathRound (JSNum.mul value (.num 100))) (.num 100)

/-- The built-in ISO 4217 reference list (`helpers.ts`). -/
def ISO_4217_CODES : List String :=
  ["USD", "EUR", "GBP", "JPY", "CHF", "CAD", "AUD", "NZD", "CNY", "SEK",
   "NOK", "DKK", "RUB", "INR", "BRL", "ZAR", "SGD", "HKD", "MXN", "KRW",
   "TRY", "PLN", "CZK", "HUF", "ILS", "THB", "MYR", "IDR", "PHP", "TWD",
   "SAR", "AED", "COP", "CLP", "PEN", "ARS", "VND", "EGP", "UAH", "QAR",
   "KZT", "BGN", "RON", "HRK", "ISK", "LTL", "LVL", "EEK", "SKK", "YER",
   "OMR", "BHD", "JOD", "LBP", "KWD", "MAD", "DZD", "TND", "LYD", "SDG",
   "IQD", "SYP", "MRO", "CVE", "GMD", "GNF", "SLL", "XOF", "XAF", "XPF",
   "XCD", "XDR", "XUA", "XSU", "XTS", "XXX"]

/-- isValidCurrencyCode (`helpers.ts`): `allowedCodes || ISO_4217_CODES`
(an explicitly supplied empty array is truthy in JavaScript and is NOT
replaced by the default list), then an exact membership test of the
uppercased code.  The `typeof code === "string"` guard is carried by
the `String` type of `code` here; the non-string behaviour (always
false) is outside the claims on this function. -/
def isValidCurrencyCode (code : String) (allowedCodes : Option (List String)) : Bool :=
  let list := match allowedCodes with
    | some l => l
    | none => ISO_4217_CODES
  list.contains (jsToUpperCase code)

/-! ### Conversion orchestrator (`src/index.ts`)

The plugin closes over its options and runs `applyCurrencyConversion`
over a plain record extracted by the lifecycle adapter.  External
collaborators are explicit parameters: the rate resolver `getRate`
returns `Except Unit JSNum` (`error` models a rejected promise), the
schema's writable-path test is the predicate `schemaHasPath`, the cache
is an association list of contents plus a log of the `set` calls
issued, and `new Date()` is the `now` parameter.  Console warnings and
`onError` contexts are accumulated in the returned state (when no
`onError` callback is configured the same context information goes to
`console.error`; the model records it identically). -/

/-- One field mapping (`CurrencyFieldConfig`).  A missing `targetPath`
or `datePath` is the empty option / empty string, matching the falsy
checks in the code. -/
structure FieldMapping where
  sourcePath : String
  currencyPath : String
  datePath : Option String
  targetPath : String
  toCurrency : String

/-- Why a field's conversion failed: the resolver rejected, the rate
was invalid with no fallback (`throw new Error("Invalid rate")`), or
writing the target threw. -/
inductive ConvError where
  | resolverError
  | invalidRate
  | setError
deriving DecidableEq, Repr

/-- The context passed to `onError` (or logged). -/
structure ErrCtx where
  field : String
  fromCurrency : String
  toCurrency : String
  date : Int
  error : ConvError
deriving DecidableEq, Repr

/-- The orchestrator's configuration after setup: the destructured
plugin options together with the external collaborators. -/
structure ConvConfig where
  fields : List FieldMapping
  getRate : String → String → Int → Except Unit JSNum
  roundFn : JSNum → JSNum
  allowedCurrencyCodes : Option (List String)
  fallbackRate : Option JSNum
  rollbackOnError : Bool
  cache : Option (List (String × JSNum))
  dateTransform : Option (Int → Int)
  schemaHasPath : String → Bool
  now : Int

/-- Evolving state of one invocation over one record. -/
structure ConvState where
  doc : JSValue
  cache : List (String × JSNum)
  cacheWrites : List (String × JSNum)
  converted : List String
  warnings : List String
  errors : List ErrCtx

/-- Cache lookup (`await cache.get(key)`), `none` on a miss. -/
def lookupCache (c : List (String × JSNum)) (k : String) : Option JSNum :=
  match c.find? (fun p => p.1 == k) with
  | some p => some p.2
  | none => none

/-- Cache write (`await cache.set(key, rate)`). -/
def cacheInsert (c : List (String × JSNum)) (k : String) (v : JSNum) :
    List (String × JSNum) :=
  (k, v) :: c

/-- The epoch-day number of a date, modelling the day component
`toISOString().slice(0, 10)` of the cache key. -/
def epochDay (ms : Int) : Int := ms.fdiv 86400000

/-- The orchestrator's cache key
`fromCurrency_toCurrency_YYYY-MM-DD`. -/
def rateKey (fromC toC : String) (date : Int) : String :=
  fromC ++ "_" ++ toC ++ "_" ++ toString (epochDay date)

/-- new Date(v) for a number-valued input (milliseconds; NaN would give
an invalid date, which no claim reaches — mapped to epoch 0). -/
def jsDateOfNum : JSNum → Int
  | .num q => ⌊q⌋
  | .nan => 0

/-- new Date(string): date-string parsing is not modelled (no claim
depends on it); mapped to epoch 0. -/
def jsDateOfString (_ : String) : Int := 0

/-- Step 6 of the per-field pipeline: read `datePath` if configured and
coercible to a date, else use the current time, then apply the optional
date-transform hook. -/
def resolveConversionDate (cfg : ConvConfig) (doc : JSValue) (f : FieldMapping) : Int :=
  let dateValue := match f.datePath with
    | some p => getNestedValue doc (getPathArray p)
    | none => .vUndefined
  let base :=
    if dateValue.truthy then
      match dateValue with
      | .vStr s => jsDateOfString s
      | .vNum n => jsDateOfNum n
      | .vDate ms => ms
      | _ => cfg.now
    else cfg.now
  match cfg.dateTransform with
  | some tf => tf base
  | none => base

/-- Outcome of the `try` block of one field: the (possibly re-written)
document, the cache contents, the `cache.set` calls issued, and
`some e` when the block threw.  Cache effects performed before a later
throw persist, as they do in the code. -/
structure TryOutcome where
  doc : JSValue
  cache : List (String × JSNum)
  writes : List (String × JSNum)
  failure : Option ConvError

/-- The converted value written at the target path
(`index.ts` lines 108-112): the rounded product of the coerced amount
and the rate, the target currency, and the conversion date. -/
def conversionResult (cfg : ConvConfig) (f : FieldMapping) (amount : JSValue)
    (rate : JSNum) (date : Int) : JSValue :=
  .vObj [("amount", .vNum (cfg.roundFn (JSNum.mul (jsToNumber amount) rate))),
         ("currency", .vStr f.toCurrency),
         ("date", .vDate date)]

/-- Rate validation and the success path (`index.ts` lines 100-114):
a falsy or NaN rate is replaced by the configured fallback rate if one
is present (a configured NaN fallback passes the `typeof` test and is
used as-is) and otherwise raises the conversion failure; then the
converted value is computed and written at the target path. -/
def finishConversion (cfg : ConvConfig) (f : FieldMapping) (amount : JSValue)
    (date : Int) (doc : JSValue) (cache writes : List (String × JSNum))
    (rate : JSNum) : TryOutcome :=
  let rateFinal : Option JSNum := if rate.falsy then cfg.fallbackRate else some rate
  match rateFinal with
  | none => ⟨doc, cache, writes, some .invalidRate⟩
  | some r =>
    match setNestedValue doc (getPathArray f.targetPath) (conversionResult cfg f amount r date) with
    | some doc2 => ⟨doc2, cache, writes, none⟩
    | none => ⟨doc, cache, writes, some .setError⟩

/-- The `try` block of one field (`index.ts` lines 90-114): cache-first
rate resolution, populating the cache on a resolver result that is
defined and not NaN, then `finishConversion`. -/
def tryConvert (cfg : ConvConfig) (f : FieldMapping) (fromC : String)
    (amount : JSValue) (date : Int) (doc : JSValue)
    (cache : List (String × JSNum)) : TryOutcome :=
  let key := rateKey fromC f.toCurrency date
  let cached : Option JSNum := if cfg.cache.isSome then lookupCache cache key else none
  match cached with
  | some r => finishConversion cfg f amount date doc cache [] r
  | none =>
    match cfg.getRate fromC f.toCurrency date with
    | .error _ => ⟨doc, cache, [], some .resolverError⟩
    | .ok r =>
      if cfg.cache.isSome && !r.isNaN then
        finishConversion cfg f amount date doc (cacheInsert cache key r) [(key, r)] r
      else
        finishConversion cfg f amount date doc cache [] r

/-- The rollback loop of the catch handler (`index.ts` lines 127-131):
erase the target path of EVERY configured field that has one.  A
`setNestedValue` throw here escapes the catch handler (`none`). -/
def rollbackAll : List FieldMapping → JSValue → Option JSValue
  | [], d => some d
  | f :: rest, d =>
    if f.targetPath = "" then rollbackAll rest d
    else
      match setNestedValue d (getPathArray f.targetPath) .vUndefined with
      | some d2 => rollbackAll rest d2
      | none => none

/-- The per-field loop of `applyCurrencyConversion`.  `Except.error`
models the orchestrator's promise rejecting (an uncaught throw). -/
def convGo (cfg : ConvConfig) : List FieldMapping → ConvState → Except Unit ConvState
  | [], st => .ok st
  | f :: rest, st =>
    if f.targetPath = "" then
      convGo cfg rest { st with warnings := st.warnings ++ ["targetPath is required in field config"] }
    else if !cfg.schemaHasPath (f.targetPath ++ ".amount") then
      convGo cfg rest { st with warnings := st.warnings ++ ["targetPath does not exist in schema"] }
    else
      let amount := getNestedValue st.doc (getPathArray f.sourcePath)
      if amount.isNullish then convGo cfg rest st
      else
        let fromValue := getNestedValue st.doc (getPathArray f.currencyPath)
        match fromValue with
        | .vStr fromC =>
          if fromC = "" then
            convGo cfg rest { st with warnings := st.warnings ++ ["Missing or invalid source currency"] }
          else if !isValidCurrencyCode fromC cfg.allowedCurrencyCodes then
            convGo cfg rest { st with warnings := st.warnings ++ ["Invalid source currency code"] }
          else if !isValidCurrencyCode f.toCurrency cfg.allowedCurrencyCodes then
            convGo cfg rest { st with warnings := st.warnings ++ ["Invalid target currency code"] }
          else
            let date := resolveConversionDate cfg st.doc f
            let tr := tryConvert cfg f fromC amount date st.doc st.cache
            match tr.failure with
            | none =>
              convGo cfg rest
                { st with doc := tr.doc, cache := tr.cache,
                          cacheWrites := st.cacheWrites ++ tr.writes,
                          converted := st.converted ++ [f.targetPath] }
            | some e =>
              let st2 :=
                { st with cache := tr.cache,
                          cacheWrites := st.cacheWrites ++ tr.writes,
                          errors := st.errors ++
                            [⟨f.sourcePath, fromC, f.toCurrency, date, e⟩] }
              if cfg.rollbackOnError then
                match rollbackAll cfg.fields st2.doc with
                | some d2 => .ok { st2 with doc := d2 }
                | none => .error ()
              else convGo cfg rest st2
        | _ =>
          convGo cfg rest { st with warnings := st.warnings ++ ["Missing or invalid source currency"] }

/-- applyCurrencyConversion (`index.ts`): process every configured
field, in order, over one record. -/
def applyCurrencyConversion (cfg : ConvConfig) (doc : JSValue) : Except Unit ConvState :=
  convGo cfg cfg.fields
    { doc := doc, cache := cfg.cache.getD [], cacheWrites := [],
      converted := [], warnings := [], errors := [] }

/-! ### Plugin setup (`currencyConversionPlugin`) -/

/-- The raw `fields` option before validation: absent/falsy, present
but not an array, or an actual array of mappings. -/
inductive RawFields where
  | missing
  | notArray
  | arr (l : List FieldMapping)

/-- The raw `getRate` option before validation. -/
inductive RawGetRate where
  | notFunction
  | fn (g : String → String → Int → Except Unit JSNum)

/-- The plugin options as supplied by the caller; `roundFn` defaults to
`defaultRound` through destructuring. -/
structure RawOptions where
  fields : RawFields
  getRate : RawGetRate
  roundFn : Option (JSNum → JSNum)
  allowedCurrencyCodes : Option (List String)
  fallbackRate : Option JSNum
  rollbackOnError : Bool
  cache : Option (List (String × JSNum))
  dateTransform : Option (Int → Int)
  schemaHasPath : String → Bool
  now : Int

/-- Whether the `fields` option passes
`!fields || !Array.isArray(fields) || fields.length === 0`. -/
def RawFields.isNonEmptyArray : RawFields → Bool
  | .arr (_ :: _) => true
  | _ => false

/-- Whether the `getRate` option passes `typeof getRate === "function"`. -/
def RawGetRate.isFunction : RawGetRate → Bool
  | .fn _ => true
  | .notFunction => false

/-- The setup error message for a bad `fields` option. -/
def fieldsErrMsg : String :=
  "[mongoose-currency-convert] option \"fields\" must be a non-empty array"

/-- The setup error message for a bad `getRate` option. -/
def getRateErrMsg : String :=
  "[mongoose-currency-convert] option \"getRate\" must be a function"

/-- currencyConversionPlugin (`index.ts`): validate the options
synchronously, before any record is processed; on success return the
per-record conversion operation that the lifecycle hooks will invoke. -/
def currencyConversionPlugin (o : RawOptions) :
    Except String (JSValue → Except Unit ConvState) :=
  match o.fields with
  | .missing => .error fieldsErrMsg
  | .notArray => .error fieldsErrMsg
  | .arr [] => .error fieldsErrMsg
  | .arr (f :: fs) =>
    match o.getRate with
    | .notFunction => .error getRateErrMsg
    | .fn g =>
      .ok (applyCurrencyConversion
        { fields := f :: fs, getRate := g,
          roundFn := o.roundFn.getD defaultRound,
          allowedCurrencyCodes := o.allowedCurrencyCodes,
          fallbackRate := o.fallbackRate,
          rollbackOnError := o.rollbackOnError,
          cache := o.cache, dateTransform := o.dateTransform,
          schemaHasPath := o.schemaHasPath, now := o.now })

/-! ### Spec-side definitions

These definitions follow the words of the specification (not the code)
and exist only to be compared against the code-derived definitions in
refinement-style claims. -/

/-- Modelled from the spec (claim C3): the claimed case-insensitive
membership test — some element of the allow-list equals the code
ignoring letter case. -/
def specCaseInsensitiveMember (code : String) (allowList : List String) : Bool :=
  allowList.any (fun x => jsToUpperCase x == jsToUpperCase code)

/-- Modelled from the spec (claim C5): a resolver result the spec says
is written to the cache — a finite, non-zero, non-NaN number (the
model's numbers are always finite). -/
def specCacheableRate : JSNum → Bool
  | .nan => false
  | .num q => !(q == 0)

/-! ### IEEE-754 binary64 semantics of the source's number type

The embedding above computes with exact rationals, but the program's
numbers are IEEE-754 binary64 doubles.  For claim C4 that difference is
load-bearing: `defaultRound` as the program runs it first rounds its
decimal input and the product `value * 100` to the nearest double.
The two definitions below model that nearest-double rounding
relationally — a double is an integer mantissa below 2^53 scaled by a
power of two in the binary64 exponent range, and a rounding result is a
representable value at minimal distance (ties never arise at the
inputs used).  They are used only to evaluate the double computation of
`Math.round(value * 100) / 100` at the input 1.005. -/

/-- A rational exactly representable as a finite IEEE-754 binary64
value: an integer mantissa of magnitude below 2^53 scaled by a power of
two in the double exponent range. -/
def IsFloat64 (q : ℚ) : Prop :=
  ∃ (m e : ℤ), |m| < 2 ^ 53 ∧ -1074 ≤ e ∧ e ≤ 971 ∧ q = (m : ℚ) * (2 : ℚ) ^ e

/-- r is a round-to-nearest binary64 value of x (any tie-breaking rule;
ties never arise in the uses below, so the nearest value is unique). -/
def Float64Rounds (x r : ℚ) : Prop :=
  IsFloat64 r ∧ ∀ s : ℚ, IsFloat64 s → |x - r| ≤ |x - s|

/-- The binary64 value of the decimal literal 1.005: the nearest double
lies 0.48 units of 2^(-52) BELOW 1.005. -/
def fl1005 : ℚ := 4526117625507348 / 2 ^ 52

/-- The binary64 product `fl1005 * 100`: the exact product
100.49999999999998934… rounds to the double 100.5 - 2^(-46), which is
strictly below 100.5. -/
def fl1005Times100 : ℚ := 7072058789855231 / 2 ^ 46

/-! ### Concrete scenarios used by individual claims -/

/-- Claim C1 scenario: two fields with rollback enabled; the first
field's source amount is missing (so it is skipped), the second field's
resolver rejects.  The first field's target path `t1` holds
pre-existing data. -/
def c1cfg : ConvConfig :=
  { fields :=
      [⟨"sa", "c", none, "t1", "EUR"⟩,
       ⟨"p", "c", none, "t2", "EUR"⟩],
    getRate := fun _ _ _ => .error (),
    roundFn := defaultRound, allowedCurrencyCodes := none,
    fallbackRate := none, rollbackOnError := true, cache := none,
    dateTransform := none, schemaHasPath := fun _ => true, now := 0 }

/-- Claim C1 scenario record: `t1` pre-populated, a valid amount and
currency for the second field. -/
def c1doc : JSValue :=
  .vObj [("t1", .vNum (.num 7)), ("p", .vNum (.num 10)), ("c", .vStr "USD")]

/-- Claim C5 counterexample scenario: a cache is configured and empty,
and the resolver returns the rate 0. -/
def c5cfg : ConvConfig :=
  { fields := [], getRate := fun _ _ _ => .ok (.num 0), roundFn := defaultRound,
    allowedCurrencyCodes := none, fallbackRate := none, rollbackOnError := false,
    cache := some [], dateTransform := none, schemaHasPath := fun _ => true, now := 0 }

/-- Claim C5 witness scenario: same configuration but the resolver
returns the rate 3. -/
def c5wcfg : ConvConfig :=
  { fields := [], getRate := fun _ _ _ => .ok (.num 3), roundFn := defaultRound,
    allowedCurrencyCodes := none, fallbackRate := none, rollbackOnError := false,
    cache := some [], dateTransform := none, schemaHasPath := fun _ => true, now := 0 }

/-- Claim C2 witness scenario (part a): the resolver returns NaN and a
static fallback rate 2 is configured. -/
def c2wcfg : ConvConfig :=
  { fields := [], getRate := fun _ _ _ => .ok .nan, roundFn := defaultRound,
    allowedCurrencyCodes := none, fallbackRate := some (.num 2), rollbackOnError := false,
    cache := none, dateTransform := none, schemaHasPath := fun _ => true, now := 0 }

/-- Claim C2 witness scenario (part b): the resolver rejects and the
same static fallback rate 2 is configured. -/
def c2wcfgThrow : ConvConfig :=
  { fields := [], getRate := fun _ _ _ => .error (), roundFn := defaultRound,
    allowedCurrencyCodes := none, fallbackRate := some (.num 2), rollbackOnError := false,
    cache := none, dateTransform := none, schemaHasPath := fun _ => true, now := 0 }

/-- A field mapping shared by the witness scenarios: source `p`,
currency `c`, target `out`, destination EUR. -/
def wField : FieldMapping := ⟨"p", "c", none, "out", "EUR"⟩

/-- Claim C8 counterexample scenario: rollback enabled; the first
field's target path `t.0.b` is not writable per the schema (so that
field is skipped), the second field's resolver rejects.  The record
holds the truthy primitive 5 in the array slot `t[0]`, so erasing
`t.0.b` during rollback throws. -/
def c8cfg : ConvConfig :=
  { fields :=
      [⟨"p", "c", none, "t.0.b", "EUR"⟩,
       ⟨"p", "c", none, "t2", "EUR"⟩],
    getRate := fun _ _ _ => .error (),
    roundFn := defaultRound, allowedCurrencyCodes := none,
    fallbackRate := none, rollbackOnError := true, cache := none,
    dateTransform := none, schemaHasPath := fun p => p == "t2.amount", now := 0 }

/-- Claim C8 counterexample record. -/
def c8doc : JSValue :=
  .vObj [("t", .vArr [.vNum (.num 5)] []), ("p", .vNum (.num 10)), ("c", .vStr "USD")]

/-- Claim C8 witness scenario: a single field whose resolver rejects,
with rollback disabled. -/
def c8wcfg : ConvConfig :=
  { fields := [⟨"p", "c", none, "t", "EUR"⟩],
    getRate := fun _ _ _ => .error (),
    roundFn := defaultRound, allowedCurrencyCodes := none,
    fallbackRate := none, rollbackOnError := false, cache := none,
    dateTransform := none, schemaHasPath := fun _ => true, now := 0 }

/-- Claim C8 witness record. -/
def c8wdoc : JSValue := .vObj [("p", .vNum (.num 10)), ("c", .vStr "USD")]

/-- Claim C10 witness scenario: the source amount is the non-numeric
string "abc", the resolver returns the valid rate 2. -/
def c10wcfg : ConvConfig :=
  { fields := [wField],
    getRate := fun _ _ _ => .ok (.num 2),
    roundFn := defaultRound, allowedCurrencyCodes := none,
    fallbackRate := none, rollbackOnError := false, cache := none,
    dateTransform := none, schemaHasPath := fun _ => true, now := 0 }

/-- Claim C10 witness record. -/
def c10wdoc : JSValue := .vObj [("p", .vStr "abc"), ("c", .vStr "USD")]

/-- Claim C10 witness initial state. -/
def c10wst : ConvState :=
  { doc := c10wdoc, cache := [], cacheWrites := [], converted := [],
    warnings := [], errors := [] }

/-! ### Helper lemmas -/

/-- String equality tests commute. -/
theorem string_beq_comm (a b : String) : (a == b) = (b == a) := by
  by_cases hab : a = b
  · subst hab; rfl
  · simp [beq_eq_false_iff_ne, hab, Ne.symm hab]

/-! ### Claim C3 -/

/-- Claim C3, counterexample.  The claim states that
`isValid(code, allowList)` is a case-insensitive membership test, so
that input "usd" matches an allow-list containing "usd".  The code
uppercases only the code, not the list entries: with the allow-list
`["usd"]` the validator rejects "usd" even though the spec-side
case-insensitive membership test accepts it. -/
theorem c3_validator_counterexample :
    isValidCurrencyCode "usd" (some ["usd"]) = false ∧
    specCaseInsensitiveMember "usd" ["usd"] = true := ⟨rfl, rfl⟩

/-- Claim C3, amended.  The validator uppercases the code and then
tests verbatim membership, so it is case-insensitive in the code
argument but compares allow-list entries case-sensitively.  It
coincides with the claimed case-insensitive membership test exactly
when every allow-list entry is already uppercase (as the built-in ISO
list and the test suite's lists are); a lowercase entry such as "usd"
is never matched by any input. -/
theorem c3_validator_amended (code : String) (l : List String)
    (h : ∀ x ∈ l, jsToUpperCase x = x) :
    isValidCurrencyCode code (some l) = specCaseInsensitiveMember code l := by
  induction l with
  | nil => rfl
  | cons x xs ih =>
    have hx : jsToUpperCase x = x := h x (by simp)
    have ih2 := ih (fun y hy => h y (by simp [hy]))
    simp only [isValidCurrencyCode, specCaseInsensitiveMember, List.contains_cons,
      List.any_cons, hx] at *
    rw [← ih2]
    rw [string_beq_comm]

/-- Claim C3, witness for the amended theorem: on the uppercase
allow-list `["USD"]` the validator agrees with the spec-side
case-insensitive membership test for the lowercase input "usd". -/
theorem c3_validator_amended_witness :
    isValidCurrencyCode "usd" (some ["USD"]) = specCaseInsensitiveMember "usd" ["USD"] :=
  c3_validator_amended "usd" ["USD"] (by decide)

/-! ### Claim C4 -/

/-- Claim C4, amended.  Under exact (infinitely precise) arithmetic
the default rounding function rounds to two decimal places with half-up
semantics: the four reference points of the spec hold, and in general
the result is n/100 for the unique integer n with
n ≤ 100·q + 1/2 < n + 1 (ties go up).  The four reference points also
agree with the program's IEEE-754 double computation, but the general
half-up property does not survive double rounding: see the
counterexample below, where the program maps 1.005 to 1.00 while
half-up demands 1.01. -/
theorem c4_default_round_half_up :
    defaultRound (.num (1234 / 1000)) = .num (123 / 100) ∧
    defaultRound (.num (1235 / 1000)) = .num (124 / 100) ∧
    defaultRound (.num (-2567 / 1000)) = .num (-257 / 100) ∧
    defaultRound (.num 5) = .num 5 ∧
    (∀ q : ℚ, ∃ n : ℤ, defaultRound (.num q) = .num ((n : ℚ) / 100) ∧
      (n : ℚ) ≤ 100 * q + 1 / 2 ∧ 100 * q + 1 / 2 < (n : ℚ) + 1) := by
  refine ⟨?_, ?_, ?_, ?_, ?_⟩
  · norm_num [defaultRound, jsMathRound, JSNum.mul, JSNum.div]
  · norm_num [defaultRound, jsMathRound, JSNum.mul, JSNum.div]
  · norm_num [defaultRound, jsMathRound, JSNum.mul, JSNum.div]
  · norm_num [defaultRound, jsMathRound, JSNum.mul, JSNum.div]
  · intro q
    refine ⟨⌊q * 100 + 1 / 2⌋, ?_, ?_, ?_⟩
    · norm_num [defaultRound, jsMathRound, JSNum.mul, JSNum.div]
    · calc ((⌊q * 100 + 1 / 2⌋ : ℤ) : ℚ) ≤ q * 100 + 1 / 2 := Int.floor_le _
        _ = 100 * q + 1 / 2 := by ring
    · calc (100 * q + 1 / 2 : ℚ) = q * 100 + 1 / 2 := by ring
        _ < ⌊q * 100 + 1 / 2⌋ + 1 := Int.lt_floor_add_one _

/-- Nearest-double rounding certificate for a positive value sitting a
fraction f (with 0 < f < 1/2) above the grid point N·2^(-k), for a
normal mantissa N in [2^52, 2^53): every representable at exponent
-k or coarser is a grid multiple and lies at least f·2^(-k) away, and
every representable at a finer exponent is below 2^52·2^(-k) and hence
farther still. -/
theorem float64Rounds_of_grid (x : ℚ) (N : ℤ) (f : ℚ) (k : ℕ)
    (hk : k ≤ 1074)
    (hx : x * 2 ^ k = (N : ℚ) + f)
    (hf0 : 0 < f) (hf1 : f < 1 / 2)
    (hN1 : (2 : ℤ) ^ 52 ≤ N) (hN2 : N < 2 ^ 53) :
    Float64Rounds x ((N : ℚ) / 2 ^ k) := by
  have hpk : (0 : ℚ) < 2 ^ k := by positivity
  have hxval : x = ((N : ℚ) + f) / 2 ^ k := by
    rw [eq_div_iff (ne_of_gt hpk)]; exact hx
  have hNq : (2 : ℚ) ^ 52 ≤ (N : ℚ) := by exact_mod_cast hN1
  have hdist : |x - (N : ℚ) / 2 ^ k| = f / 2 ^ k := by
    have h1 : x - (N : ℚ) / 2 ^ k = f / 2 ^ k := by rw [hxval]; ring
    rw [h1, abs_of_pos (by positivity)]
  have hN0 : (0 : ℤ) < N := lt_of_lt_of_le (by positivity) hN1
  constructor
  · refine ⟨N, -(k : ℤ), ?_, by omega, by omega, ?_⟩
    · rw [abs_of_pos hN0]
      exact hN2
    · rw [zpow_neg, zpow_natCast, ← div_eq_mul_inv]
  · rintro s ⟨m, e, hm, he1, he2, rfl⟩
    rcases le_or_lt (-(k : ℤ)) e with hcase | hcase
    · have htnn : (0 : ℤ) ≤ e + k := by omega
      have ht : ((e + k).toNat : ℤ) = e + k := Int.toNat_of_nonneg htnn
      have hpow : (2 : ℚ) ^ e * (2 : ℚ) ^ (k : ℕ) = (2 : ℚ) ^ ((e + k).toNat : ℕ) := by
        rw [← zpow_natCast (2 : ℚ) k, ← zpow_add₀ (two_ne_zero), ← ht, zpow_natCast,
          Int.toNat_natCast]
      have hcast : ((m * 2 ^ (e + k).toNat : ℤ) : ℚ) =
          (m : ℚ) * (2 : ℚ) ^ ((e + k).toNat : ℕ) := by
        rw [Int.cast_mul, Int.cast_pow]
        norm_num
      have hs : (m : ℚ) * (2 : ℚ) ^ e = ((m * 2 ^ (e + k).toNat : ℤ) : ℚ) / 2 ^ k := by
        rw [hcast, eq_div_iff (ne_of_gt hpk), mul_assoc, hpow]
      have hgrid : ∀ j : ℤ, f ≤ |((N : ℚ) + f) - j| := by
        intro j
        rcases le_or_lt j N with hj | hj
        · have hj2 : (j : ℚ) ≤ (N : ℚ) := by exact_mod_cast hj
          calc f ≤ (N : ℚ) + f - j := by linarith
            _ ≤ |(N : ℚ) + f - j| := le_abs_self _
        · have hj2 : (N : ℚ) + 1 ≤ (j : ℚ) := by exact_mod_cast hj
          calc f ≤ (j : ℚ) - ((N : ℚ) + f) := by linarith
            _ ≤ |(j : ℚ) - ((N : ℚ) + f)| := le_abs_self _
            _ = |(N : ℚ) + f - j| := by rw [abs_sub_comm]
      have hxj : x - ((m * 2 ^ (e + k).toNat : ℤ) : ℚ) / 2 ^ k =
          (((N : ℚ) + f) - ((m * 2 ^ (e + k).toNat : ℤ) : ℚ)) / 2 ^ k := by
        rw [hxval]; ring
      rw [hs, hdist, hxj, abs_div, abs_of_pos hpk]
      exact (div_le_div_iff_of_pos_right hpk).mpr (hgrid _)
    · have hepow : (2 : ℚ) ^ e ≤ (2 : ℚ) ^ (-(k : ℤ) - 1) :=
        zpow_le_zpow_right₀ one_le_two (by omega)
      have habs : |(m : ℚ)| < (2 : ℚ) ^ 53 := by
        rw [← Int.cast_abs]
        exact_mod_cast hm
      have hsmall : |(m : ℚ) * (2 : ℚ) ^ e| < (2 : ℚ) ^ 52 / 2 ^ k := by
        rw [abs_mul, abs_of_pos (show (0 : ℚ) < (2 : ℚ) ^ e by positivity)]
        calc |(m : ℚ)| * (2 : ℚ) ^ e ≤ |(m : ℚ)| * (2 : ℚ) ^ (-(k : ℤ) - 1) :=
              mul_le_mul_of_nonneg_left hepow (abs_nonneg _)
          _ < (2 : ℚ) ^ 53 * (2 : ℚ) ^ (-(k : ℤ) - 1) :=
              mul_lt_mul_of_pos_right habs
                (show (0 : ℚ) < (2 : ℚ) ^ (-(k : ℤ) - 1) by positivity)
          _ = (2 : ℚ) ^ 52 / 2 ^ k := by
              rw [show -(k : ℤ) - 1 = -1 + -(k : ℤ) by ring, zpow_add₀ (two_ne_zero),
                zpow_neg, zpow_neg, zpow_natCast, zpow_one]
              field_simp
              ring
      have hxpos : 0 < x := by
        rw [hxval]; positivity
      have hxge : ((2 : ℚ) ^ 52 + f) / 2 ^ k ≤ x := by
        rw [hxval]
        exact (div_le_div_iff_of_pos_right hpk).mpr (by linarith)
      have hfar : f / 2 ^ k < x - |(m : ℚ) * (2 : ℚ) ^ e| := by
        have h52 : ((2 : ℚ) ^ 52 + f) / 2 ^ k - (2 : ℚ) ^ 52 / 2 ^ k = f / 2 ^ k := by ring
        linarith
      have hchain : x - |(m : ℚ) * (2 : ℚ) ^ e| ≤ |x - (m : ℚ) * (2 : ℚ) ^ e| := by
        calc x - |(m : ℚ) * (2 : ℚ) ^ e| = |x| - |(m : ℚ) * (2 : ℚ) ^ e| := by
              rw [abs_of_pos hxpos]
          _ ≤ |x - (m : ℚ) * (2 : ℚ) ^ e| := abs_sub_abs_le_abs_sub _ _
      rw [hdist]
      linarith

/-- The decimal literal 1.005 is stored as the double `fl1005`, which
lies 12/25 of one unit in the last place below 1.005. -/
theorem fl1005_rounds : Float64Rounds (201 / 200) fl1005 := by
  have h := float64Rounds_of_grid (201 / 200) 4526117625507348 (12 / 25) 52
    (by norm_num) (by norm_num) (by norm_num) (by norm_num) (by norm_num) (by norm_num)
  simpa [fl1005] using h

/-- The double product `fl1005 * 100` rounds to `fl1005Times100`,
which is strictly below 100.5. -/
theorem fl1005_times100_rounds : Float64Rounds (fl1005 * 100) fl1005Times100 := by
  have h := float64Rounds_of_grid (fl1005 * 100) 7072058789855231 (1 / 4) 46
    (by norm_num) (by norm_num [fl1005]) (by norm_num) (by norm_num) (by norm_num)
    (by norm_num)
  simpa [fl1005Times100] using h

/-- Claim C4, counterexample.  The claim's general half-up sentence
fails on the program, which computes `Math.round(value * 100) / 100` on
IEEE-754 doubles: the literal 1.005 is stored as the double `fl1005`
(just below 1.005), the product `fl1005 * 100` rounds to the double
`fl1005Times100` (just below 100.5), so `Math.round` — the closest
integer, computed here as the exact floor of the double plus one half —
returns 100 and the program yields 100/100 = 1.00; half-up rounding of
1.005 to two decimals demands 101/100 = 1.01, which is what the exact-
rational model `defaultRound` returns.  The program and the claimed
half-up semantics therefore disagree at 1.005. -/
theorem c4_ieee_counterexample :
    Float64Rounds (201 / 200) fl1005 ∧
    Float64Rounds (fl1005 * 100) fl1005Times100 ∧
    (⌊fl1005Times100 + 1 / 2⌋ : ℤ) = 100 ∧
    (⌊(201 / 200 : ℚ) * 100 + 1 / 2⌋ : ℤ) = 101 ∧
    (100 : ℚ) / 100 ≠ 101 / 100 ∧
    defaultRound (.num (201 / 200)) = .num (101 / 100) := by
  refine ⟨fl1005_rounds, fl1005_times100_rounds, ?_, ?_, by norm_num, ?_⟩
  · norm_num [fl1005Times100, Int.floor_eq_iff]
  · norm_num [Int.floor_eq_iff]
  · norm_num [defaultRound, jsMathRound, JSNum.mul, JSNum.div]

/-! ### Claim C6 -/

/-- Claim C6.  An explicitly supplied empty allow-list denies every
code, while supplying no allow-list at all falls back to the built-in
ISO 4217 reference list (the two behaviours differ, e.g. on "USD"):
the empty array is truthy in JavaScript, so `allowedCodes ||
ISO_4217_CODES` keeps it. -/
theorem c6_empty_allowlist_denies_everything :
    (∀ code : String, isValidCurrencyCode code (some []) = false) ∧
    isValidCurrencyCode "USD" none = true ∧
    (∀ code : String,
      isValidCurrencyCode code none = ISO_4217_CODES.contains (jsToUpperCase code)) :=
  ⟨fun _ => rfl, rfl, fun _ => rfl⟩

/-! ### Claim C7: helper lemmas for the set/get round trip -/

/-- Reading the key just written on an association-list object gives the
written value. -/
theorem objGet_objSet (fs : List (String × JSValue)) (k : String) (v : JSValue) :
    objGet (objSet fs k v) k = v := by
  induction fs with
  | nil => simp [objGet, objSet, List.find?]
  | cons p rest ih =>
    obtain ⟨k', v'⟩ := p
    cases hk : (k' == k) with
    | true => simp [objSet, hk, objGet, List.find?]
    | false => simpa [objSet, hk, objGet, List.find?] using ih

/-- Reading an in-range index just replaced gives the new element. -/
theorem getD_set_self : ∀ (l : List JSValue) (n : Nat) (v : JSValue), n < l.length →
    (l.set n v).getD n .vUndefined = v := by
  intro l
  induction l with
  | nil => intro n v h; simp at h
  | cons x xs ih =>
    intro n v h
    cases n with
    | zero => rfl
    | succ m => simpa [List.set, List.getD] using ih m v (by simpa using h)

/-- Reading the position right after a list gives the appended element. -/
theorem getD_append_len : ∀ (xs : List JSValue) (v : JSValue),
    (xs ++ [v]).getD xs.length .vUndefined = v := by
  intro xs v
  induction xs with
  | nil => rfl
  | cons x t ih => simp [ih]

/-- Reading the array slot just written gives the written value, both
for in-range replacement and for hole-padding extension. -/
theorem arrRead_arrWrite (l : List JSValue) (n : Nat) (v : JSValue) :
    arrRead (arrWrite l n v) n = v := by
  unfold arrRead arrWrite
  by_cases h : n < l.length
  · simp only [h, if_true]
    exact getD_set_self l n v h
  · simp only [h, if_false]
    have hlen : (l ++ List.replicate (n - l.length) JSValue.vUndefined).length = n := by
      simp [Nat.add_sub_cancel' (Nat.le_of_not_lt h)]
    have h2 := getD_append_len (l ++ List.replicate (n - l.length) JSValue.vUndefined) v
    rwa [hlen] at h2

/-- A key with a canonical array index is numeric-looking. -/
theorem isNumericKey_of_natIndex (s : String) (n : Nat) (h : natIndex s = some n) :
    isNumericKey s = true := by
  unfold natIndex at h
  unfold isNumericKey
  cases hp : jsParseNumber s with
  | none => rw [hp] at h; simp at h
  | some p => simp [hp]

/-- Round trip for the recursive worker: a completed set at
`parts ++ [last]` is read back by get at the same segments. -/
theorem setNestedGo_roundtrip :
    ∀ (parts : List String) (target : JSValue) (last : String) (value out : JSValue),
      setNestedGo target parts last value = some out →
      getNestedValue out (parts ++ [last]) = value := by
  intro parts
  induction parts with
  | nil =>
    intro target last value out h
    cases target with
    | vObj fs =>
      simp only [setNestedGo, Option.some.injEq] at h
      subst h
      simp [getNestedValue, JSValue.truthy, JSValue.isObjectLike, getStep, objGet_objSet]
    | vArr elems props =>
      simp only [setNestedGo] at h
      cases hk : isNumericKey last with
      | true =>
        rw [hk] at h
        simp only [if_true] at h
        cases hn : natIndex last with
        | none => rw [hn] at h; simp at h
        | some n =>
          rw [hn] at h
          simp only [Option.some.injEq] at h
          subst h
          simp [getNestedValue, JSValue.truthy, JSValue.isObjectLike, getStep, hk, hn,
            arrRead_arrWrite]
      | false =>
        rw [hk] at h
        simp only [Bool.false_eq_true, if_false, Option.some.injEq] at h
        subst h
        simp [getNestedValue, JSValue.truthy, JSValue.isObjectLike, getStep, hk, objGet_objSet]
    | vUndefined => simp [setNestedGo] at h
    | vNull => simp [setNestedGo] at h
    | vBool b => simp [setNestedGo] at h
    | vNum n => simp [setNestedGo] at h
    | vStr s => simp [setNestedGo] at h
    | vDate ms => simp [setNestedGo] at h
  | cons k ks ih =>
    intro target last value out h
    cases target with
    | vObj fs =>
      simp only [setNestedGo] at h
      cases hrec : setNestedGo (if (objGet fs k).isObjectLike = true then objGet fs k else .vObj [])
          ks last value with
      | none => rw [hrec] at h; simp at h
      | some c2 =>
        rw [hrec] at h
        simp only [Option.map_some', Option.some.injEq] at h
        subst h
        have h3 := ih _ last value c2 hrec
        simpa [getNestedValue, JSValue.truthy, JSValue.isObjectLike, getStep,
          objGet_objSet] using h3
    | vArr elems props =>
      simp only [setNestedGo] at h
      cases hk : isNumericKey k with
      | true =>
        rw [hk] at h
        simp only [if_true] at h
        cases hn : natIndex k with
        | none => rw [hn] at h; simp at h
        | some n =>
          simp only [hn] at h
          cases hrec : setNestedGo (if (arrRead elems n).truthy = true then arrRead elems n
              else .vObj []) ks last value with
          | none => rw [hrec] at h; simp at h
          | some c2 =>
            rw [hrec] at h
            simp only [Option.map_some', Option.some.injEq] at h
            subst h
            have h3 := ih _ last value c2 hrec
            simpa [getNestedValue, JSValue.truthy, JSValue.isObjectLike, getStep, hk, hn,
              arrRead_arrWrite] using h3
      | false =>
        rw [hk] at h
        simp only [Bool.false_eq_true, if_false] at h
        cases hrec : setNestedGo (if (objGet props k).isObjectLike = true then objGet props k
            else .vObj []) ks last value with
        | none => rw [hrec] at h; simp at h
        | some c2 =>
          rw [hrec] at h
          simp only [Option.map_some', Option.some.injEq] at h
          subst h
          have h3 := ih _ last value c2 hrec
          simpa [getNestedValue, JSValue.truthy, JSValue.isObjectLike, getStep, hk,
            objGet_objSet] using h3
    | vUndefined => simp [setNestedGo] at h
    | vNull => simp [setNestedGo] at h
    | vBool b => simp [setNestedGo] at h
    | vNum n => simp [setNestedGo] at h
    | vStr s => simp [setNestedGo] at h
    | vDate ms => simp [setNestedGo] at h

/-- A list with a known last element is its dropLast plus that element. -/
theorem dropLast_append_getLast_of_some :
    ∀ (l : List String) (a : String), l.getLast? = some a → l.dropLast ++ [a] = l := by
  intro l
  induction l with
  | nil => intro a h; simp at h
  | cons x xs ih =>
    intro a h
    cases xs with
    | nil => simp at h; subst h; rfl
    | cons y ys =>
      have h2 : (y :: ys).getLast? = some a := by simpa using h
      have h3 := ih a h2
      simp [List.dropLast, h3]

/-! ### Claim C7 -/

/-- Claim C7, counterexample.  The claim asserts the set-then-get round
trip for every valid non-empty dotted path and every value against any
record.  On the record with `a = [5]` and path "a.0.b", the set walks
into the truthy primitive 5 kept in the array slot (the code only
replaces falsy slots of array containers) and the final assignment on
a primitive throws in strict mode (modelled as `none`); the value is
never stored, and get on the untouched record yields `undefined`, so
the round trip fails. -/
theorem c7_roundtrip_counterexample :
    setNestedValue (.vObj [("a", .vArr [.vNum (.num 5)] [])]) (getPathArray "a.0.b")
      (.vNum (.num 1)) = none ∧
    getNestedValue (.vObj [("a", .vArr [.vNum (.num 5)] [])]) (getPathArray "a.0.b") =
      .vUndefined := ⟨rfl, rfl⟩

/-- Claim C7, amended.  For every dotted path whose last segment is
non-empty and every value, whenever `setNestedValue` completes without
throwing (in particular whenever no intermediate numeric segment meets
an array slot holding a truthy primitive), `getNestedValue` at the same
path returns exactly the written value — including depth ≥ 3 paths and
numeric segments with array-typed intermediate containers. -/
theorem c7_roundtrip_amended (doc value doc2 : JSValue) (path last : String)
    (hlast : (getPathArray path).getLast? = some last) (hne : last ≠ "")
    (hset : setNestedValue doc (getPathArray path) value = some doc2) :
    getNestedValue doc2 (getPathArray path) = value := by
  simp only [setNestedValue, hlast, hne, if_false] at hset
  have hk := dropLast_append_getLast_of_some _ _ hlast
  have h2 := setNestedGo_roundtrip _ _ _ _ _ hset
  rwa [hk] at h2

/-- Claim C7, witness for the amended theorem: on the record with an
empty array at "a", setting "a.0.b" (depth 3, numeric segment, array
intermediate) stores the value 42 and get reads it back. -/
theorem c7_roundtrip_amended_witness :
    getNestedValue (.vObj [("a", .vArr [.vObj [("b", .vNum (.num 42))]] [])])
      (getPathArray "a.0.b") = .vNum (.num 42) :=
  c7_roundtrip_amended (.vObj [("a", .vArr [] [])]) (.vNum (.num 42)) _ "a.0.b" "b" rfl
    (by decide) rfl

/-! ### Claim C9 -/

/-- Claim C9.  Setup validation happens once, synchronously, in
`currencyConversionPlugin` before any record is processed: the plugin
yields the per-record conversion operation exactly when `fields` is a
non-empty array and `getRate` is a function, and otherwise fails
directly to the caller with the corresponding configuration error
(the `fields` check is performed first). -/
theorem c9_setup_validation (o : RawOptions) :
    ((currencyConversionPlugin o).isOk = (o.fields.isNonEmptyArray && o.getRate.isFunction)) ∧
    (o.fields.isNonEmptyArray = false → currencyConversionPlugin o = .error fieldsErrMsg) ∧
    (o.fields.isNonEmptyArray = true → o.getRate.isFunction = false →
      currencyConversionPlugin o = .error getRateErrMsg) := by
  obtain ⟨f, g, rest⟩ := o
  match f, g with
  | .missing, .notFunction => exact ⟨rfl, fun _ => rfl, by simp [RawFields.isNonEmptyArray]⟩
  | .missing, .fn g => exact ⟨rfl, fun _ => rfl, by simp [RawFields.isNonEmptyArray]⟩
  | .notArray, .notFunction => exact ⟨rfl, fun _ => rfl, by simp [RawFields.isNonEmptyArray]⟩
  | .notArray, .fn g => exact ⟨rfl, fun _ => rfl, by simp [RawFields.isNonEmptyArray]⟩
  | .arr [], .notFunction => exact ⟨rfl, fun _ => rfl, by simp [RawFields.isNonEmptyArray]⟩
  | .arr [], .fn g => exact ⟨rfl, fun _ => rfl, by simp [RawFields.isNonEmptyArray]⟩
  | .arr (m :: ms), .notFunction =>
    exact ⟨rfl, by simp [RawFields.isNonEmptyArray], fun _ _ => rfl⟩
  | .arr (m :: ms), .fn g =>
    exact ⟨rfl, by simp [RawFields.isNonEmptyArray], by simp [RawGetRate.isFunction]⟩

/-- Claim C9, witness: a concrete options record with a missing
`fields` option fails with the `fields` configuration error, and one
with well-formed options succeeds. -/
theorem c9_setup_validation_witness :
    currencyConversionPlugin
      { fields := .missing, getRate := .notFunction, roundFn := none,
        allowedCurrencyCodes := none, fallbackRate := none, rollbackOnError := false,
        cache := none, dateTransform := none, schemaHasPath := fun _ => true,
        now := 0 } = .error fieldsErrMsg ∧
    (currencyConversionPlugin
      { fields := .arr [⟨"p", "c", none, "t", "EUR"⟩],
        getRate := .fn (fun _ _ _ => .ok (.num 1)), roundFn := none,
        allowedCurrencyCodes := none, fallbackRate := none, rollbackOnError := false,
        cache := none, dateTransform := none, schemaHasPath := fun _ => true,
        now := 0 }).isOk = true :=
  ⟨(c9_setup_validation _).2.1 rfl, (c9_setup_validation _).1⟩

/-! ### Claims C2 and C5: the try-block rate protocol -/

/-- The try block passes its cache-write log through rate validation
unchanged: writes performed before a later failure persist. -/
theorem finishConversion_writes (cfg : ConvConfig) (f : FieldMapping) (amount : JSValue)
    (date : Int) (doc : JSValue) (cache writes : List (String × JSNum)) (rate : JSNum) :
    (finishConversion cfg f amount date doc cache writes rate).writes = writes := by
  unfold finishConversion
  split
  · cases h1 : cfg.fallbackRate with
    | none => simp [h1]
    | some fb =>
      simp only [h1]
      cases h2 : setNestedValue doc (getPathArray f.targetPath)
          (conversionResult cfg f amount fb date) with
      | some d2 => simp [h2]
      | none => simp [h2]
  · cases h2 : setNestedValue doc (getPathArray f.targetPath)
        (conversionResult cfg f amount rate date) with
    | some d2 => simp [h2]
    | none => simp [h2]

/-- Claim C2.  With a static fallback rate configured and the cache
missing (or absent), rate resolution behaves asymmetrically: (a) if the
resolver RETURNS a falsy or NaN rate, the fallback rate is used and the
field conversion succeeds, writing the converted value computed from
the fallback rate (a non-NaN invalid rate such as 0 is still written to
the cache first); (b) if the resolver itself REJECTS, the fallback rate
is not consulted and the field is a conversion failure that leaves the
document and cache untouched. -/
theorem c2_fallback_asymmetry (cfg : ConvConfig) (f : FieldMapping) (fromC : String)
    (amount : JSValue) (date : Int) (doc doc2 : JSValue)
    (cache : List (String × JSNum)) (fb r : JSNum)
    (hfb : cfg.fallbackRate = some fb)
    (hmiss : (if cfg.cache.isSome then lookupCache cache (rateKey fromC f.toCurrency date)
      else none) = none) :
    (cfg.getRate fromC f.toCurrency date = .ok r → r.falsy = true →
      setNestedValue doc (getPathArray f.targetPath)
        (conversionResult cfg f amount fb date) = some doc2 →
      tryConvert cfg f fromC amount date doc cache =
        ⟨doc2,
         if cfg.cache.isSome && !r.isNaN then
           cacheInsert cache (rateKey fromC f.toCurrency date) r else cache,
         if cfg.cache.isSome && !r.isNaN then
           [(rateKey fromC f.toCurrency date, r)] else [],
         none⟩) ∧
    (cfg.getRate fromC f.toCurrency date = .error () →
      tryConvert cfg f fromC amount date doc cache =
        ⟨doc, cache, [], some .resolverError⟩) := by
  constructor
  · intro hok hf hset
    unfold tryConvert
    simp only [hmiss, hok]
    cases hcc : (cfg.cache.isSome && !r.isNaN) with
    | true => simp [hcc, finishConversion, hf, hfb, hset]
    | false => simp [hcc, finishConversion, hf, hfb, hset]
  · intro herr
    unfold tryConvert
    simp only [hmiss, herr]

/-- Claim C2, witness: with fallback rate 2 and amount 10, a resolver
returning NaN yields a successful conversion written with the fallback
rate, while a rejecting resolver yields a resolver failure even though
the same fallback is configured. -/
theorem c2_fallback_asymmetry_witness :
    tryConvert c2wcfg wField "USD" (.vNum (.num 10)) 0 (.vObj []) [] =
      ⟨.vObj [("out", conversionResult c2wcfg wField (.vNum (.num 10)) (.num 2) 0)],
       [], [], none⟩ ∧
    tryConvert c2wcfgThrow wField "USD" (.vNum (.num 10)) 0 (.vObj []) [] =
      ⟨.vObj [], [], [], some .resolverError⟩ :=
  ⟨(c2_fallback_asymmetry c2wcfg wField "USD" (.vNum (.num 10)) 0 (.vObj []) _ [] (.num 2)
      .nan rfl rfl).1 rfl rfl rfl,
   (c2_fallback_asymmetry c2wcfgThrow wField "USD" (.vNum (.num 10)) 0 (.vObj []) (.vObj [])
      [] (.num 2) .nan rfl rfl).2 rfl⟩

/-- Claim C5, counterexample.  The claim states a returned zero is
never written to the cache.  With an empty configured cache, when the
resolver returns 0 the code's guard `rate !== undefined &&
!Number.isNaN(rate)` passes and `cache.set` IS called with 0, although
the spec-side cacheable-rate predicate rejects 0. -/
theorem c5_cache_write_counterexample :
    (tryConvert c5cfg wField "USD" (.vNum (.num 10)) 0 (.vObj []) []).writes =
      [(rateKey "USD" "EUR" 0, .num 0)] ∧
    specCacheableRate (.num 0) = false := ⟨rfl, rfl⟩

/-- Claim C5, amended.  When a cache is configured and the resolver is
invoked after a cache miss, the cache is populated with the resolver's
result if and only if that result is not NaN: NaN results (and results
that are undefined) are never written, but a returned zero IS written
(the model's numbers are always finite, so non-finite results do not
arise). -/
theorem c5_cache_write_amended (cfg : ConvConfig) (f : FieldMapping) (fromC : String)
    (amount : JSValue) (date : Int) (doc : JSValue) (cache : List (String × JSNum)) (r : JSNum)
    (hc : cfg.cache.isSome = true)
    (hmiss : lookupCache cache (rateKey fromC f.toCurrency date) = none)
    (hres : cfg.getRate fromC f.toCurrency date = .ok r) :
    (tryConvert cfg f fromC amount date doc cache).writes =
      if r.isNaN then [] else [(rateKey fromC f.toCurrency date, r)] := by
  unfold tryConvert
  simp only [hc, if_true, hmiss, hres]
  cases hn : r.isNaN with
  | true => simp [hn, finishConversion_writes]
  | false => simp [hn, finishConversion_writes]

/-- Claim C5, witness for the amended theorem: a cache miss followed by
a resolver result of 3 issues exactly the cache write of 3. -/
theorem c5_cache_write_amended_witness :
    (tryConvert c5wcfg wField "USD" (.vNum (.num 10)) 0 (.vObj []) []).writes =
      [(rateKey "USD" "EUR" 0, .num 3)] :=
  c5_cache_write_amended c5wcfg wField "USD" (.vNum (.num 10)) 0 (.vObj []) [] (.num 3)
    rfl rfl rfl

/-! ### Claim C10 -/

/-- Claim C10.  The orchestrator never checks that the value read at
`sourcePath` is numeric: it skips only when that value is null or
undefined.  For any other value — numeric or not — once the currency
guards pass and a valid rate is resolved, it writes the conversion
result whose amount is `round(Number(amount) * rate)`; the coercion
`Number` yields NaN for values like the string "abc", so a NaN amount
is written. -/
theorem c10_no_numeric_amount_check (cfg : ConvConfig) (f : FieldMapping)
    (st : ConvState) (fromC : String) (r : JSNum) (doc2 : JSValue)
    (ht : f.targetPath ≠ "")
    (hs : cfg.schemaHasPath (f.targetPath ++ ".amount") = true)
    (hnn : (getNestedValue st.doc (getPathArray f.sourcePath)).isNullish = false)
    (hcur : getNestedValue st.doc (getPathArray f.currencyPath) = .vStr fromC)
    (hfc : fromC ≠ "")
    (hv1 : isValidCurrencyCode fromC cfg.allowedCurrencyCodes = true)
    (hv2 : isValidCurrencyCode f.toCurrency cfg.allowedCurrencyCodes = true)
    (hnc : cfg.cache = none)
    (hr : cfg.getRate fromC f.toCurrency (resolveConversionDate cfg st.doc f) = .ok r)
    (hrv : r.falsy = false)
    (hset : setNestedValue st.doc (getPathArray f.targetPath)
      (conversionResult cfg f (getNestedValue st.doc (getPathArray f.sourcePath)) r
        (resolveConversionDate cfg st.doc f)) = some doc2) :
    convGo cfg [f] st =
      .ok { st with doc := doc2, converted := st.converted ++ [f.targetPath] } := by
  have htr : tryConvert cfg f fromC (getNestedValue st.doc (getPathArray f.sourcePath))
      (resolveConversionDate cfg st.doc f) st.doc st.cache =
      ⟨doc2, st.cache, [], none⟩ := by
    unfold tryConvert
    simp only [hnc, Option.isSome_none, Bool.false_eq_true, if_false, hr, Bool.false_and,
      finishConversion, hrv, hset]
  unfold convGo
  simp only [ht, if_false, hs, Bool.not_true, hnn, hcur, hfc, hv1, hv2, htr,
    Bool.false_eq_true, List.append_nil]
  rfl

/-- Claim C10, witness: with the amount "abc" (not numeric) and the
valid rate 2, the field is converted and the written amount is NaN:
`Number("abc")` is NaN and `round(NaN * 2)` is NaN. -/
theorem c10_no_numeric_amount_check_witness :
    convGo c10wcfg [wField] c10wst =
      .ok { c10wst with
        doc := .vObj [("p", .vStr "abc"), ("c", .vStr "USD"),
                      ("out", conversionResult c10wcfg wField (.vStr "abc") (.num 2) 0)],
        converted := ["out"] } ∧
    jsToNumber (.vStr "abc") = .nan ∧
    conversionResult c10wcfg wField (.vStr "abc") (.num 2) 0 =
      .vObj [("amount", .vNum .nan), ("currency", .vStr "EUR"), ("date", .vDate 0)] :=
  ⟨c10_no_numeric_amount_check c10wcfg wField c10wst "USD" (.num 2) _ (by decide) rfl rfl rfl
      (by decide) rfl rfl rfl rfl rfl rfl,
   rfl, rfl⟩

/-! ### Claim C1 -/

/-- Claim C1.  The claim states that rollback erases exactly the target
paths actually written in the invocation and never touches the target
of a skipped field.  In the code the rollback loop iterates over ALL
configured fields (`for (const f of fields)`) instead of the collected
`convertedFields` (which is built but never read), so it erases the
pre-populated target `t1` of the first field even though that field was
skipped (missing source amount, silently — no warning) and nothing was
converted in the invocation (`converted = []`). -/
theorem c1_rollback_erases_skipped_field_target :
    getNestedValue c1doc (getPathArray "t1") = .vNum (.num 7) ∧
    ∃ st, applyCurrencyConversion c1cfg c1doc = .ok st ∧
      st.converted = [] ∧ st.warnings = [] ∧ st.errors.length = 1 ∧
      getNestedValue st.doc (getPathArray "t1") = .vUndefined :=
  ⟨rfl, _, rfl, rfl, rfl, rfl, rfl⟩

/-! ### Claim C8: helper lemmas -/

/-- A completed set on a plain object yields a plain object. -/
theorem setNestedValue_vObj (fs : List (String × JSValue)) (keys : List String) (v out : JSValue)
    (h : setNestedValue (.vObj fs) keys v = some out) : ∃ gs, out = .vObj gs := by
  unfold setNestedValue at h
  cases hl : keys.getLast? with
  | none => rw [hl] at h; simp at h; exact ⟨fs, h.symm⟩
  | some last =>
    rw [hl] at h
    by_cases he : last = ""
    · simp [he] at h; exact ⟨fs, h.symm⟩
    · simp only [he, if_false] at h
      cases hd : keys.dropLast with
      | nil =>
        rw [hd] at h
        simp only [setNestedGo, Option.some.injEq] at h
        exact ⟨_, h.symm⟩
      | cons k ks =>
        rw [hd] at h
        simp only [setNestedGo] at h
        rcases Option.map_eq_some'.mp h with ⟨c2, _, heq⟩
        exact ⟨_, heq.symm⟩

/-- When every configured target path is a single non-empty segment,
the rollback loop never throws on a plain-object record and yields a
plain object. -/
theorem rollbackAll_vObj (l : List FieldMapping)
    (h : ∀ f ∈ l, getPathArray f.targetPath = [f.targetPath]) :
    ∀ fs, ∃ gs, rollbackAll l (.vObj fs) = some (.vObj gs) := by
  induction l with
  | nil => intro fs; exact ⟨fs, rfl⟩
  | cons f rest ih =>
    intro fs
    have hf := h f (by simp)
    have hrest : ∀ g ∈ rest, getPathArray g.targetPath = [g.targetPath] :=
      fun g hg => h g (by simp [hg])
    by_cases hT : f.targetPath = ""
    · simp only [rollbackAll, hT, if_true]
      exact ih hrest fs
    · simp only [rollbackAll, hT, if_false]
      rw [hf]
      simp only [setNestedValue, List.getLast?_singleton, hT, if_false,
        List.dropLast_single, setNestedGo]
      exact ih hrest _

/-- Rate validation keeps the document a plain object (the success path
rewrites it through `setNestedValue`, the failure paths leave it). -/
theorem finishConversion_doc_vObj (cfg : ConvConfig) (f : FieldMapping) (amount : JSValue)
    (date : Int) (doc0 : JSValue) (cache writes : List (String × JSNum)) (rate : JSNum)
    (fs : List (String × JSValue)) (hd : doc0 = .vObj fs) :
    ∃ gs, (finishConversion cfg f amount date doc0 cache writes rate).doc = .vObj gs := by
  subst hd
  unfold finishConversion
  split
  · cases h1 : cfg.fallbackRate with
    | none => exact ⟨fs, by simp [h1]⟩
    | some fb =>
      simp only [h1]
      cases h2 : setNestedValue (.vObj fs) (getPathArray f.targetPath)
          (conversionResult cfg f amount fb date) with
      | some d2 =>
        rcases setNestedValue_vObj _ _ _ _ h2 with ⟨gs, hgs⟩
        exact ⟨gs, by simp [h2, hgs]⟩
      | none => exact ⟨fs, by simp [h2]⟩
  · cases h2 : setNestedValue (.vObj fs) (getPathArray f.targetPath)
        (conversionResult cfg f amount rate date) with
    | some d2 =>
      rcases setNestedValue_vObj _ _ _ _ h2 with ⟨gs, hgs⟩
      exact ⟨gs, by simp [h2, hgs]⟩
    | none => exact ⟨fs, by simp [h2]⟩

/-- The whole try block keeps the document a plain object. -/
theorem tryConvert_doc_vObj (cfg : ConvConfig) (f : FieldMapping) (fromC : String)
    (amount : JSValue) (date : Int) (doc0 : JSValue) (cache : List (String × JSNum))
    (fs : List (String × JSValue)) (hd : doc0 = .vObj fs) :
    ∃ gs, (tryConvert cfg f fromC amount date doc0 cache).doc = .vObj gs := by
  unfold tryConvert
  cases hcached : (if cfg.cache.isSome = true then
      lookupCache cache (rateKey fromC f.toCurrency date) else none) with
  | some r =>
    simp only [hcached]
    exact finishConversion_doc_vObj cfg f amount date doc0 cache [] r fs hd
  | none =>
    simp only [hcached]
    cases hres : cfg.getRate fromC f.toCurrency date with
    | error e => exact ⟨fs, by simp [hd]⟩
    | ok r =>
      cases hcc : (cfg.cache.isSome && !r.isNaN) with
      | true =>
        simp only [hcc, if_true]
        exact finishConversion_doc_vObj cfg f amount date doc0 _ _ r fs hd
      | false =>
        simp only [hcc, Bool.false_eq_true, if_false]
        exact finishConversion_doc_vObj cfg f amount date doc0 _ _ r fs hd

/-- With rollback disabled, the per-field loop always completes: every
failure is caught and handled inside the loop. -/
theorem convGo_isOk_of_no_rollback (cfg : ConvConfig) (h : cfg.rollbackOnError = false) :
    ∀ (l : List FieldMapping) (st : ConvState), (convGo cfg l st).isOk = true := by
  intro l
  induction l with
  | nil => intro st; rfl
  | cons f rest ih =>
    intro st
    unfold convGo
    simp only [h, Bool.false_eq_true, if_false]
    repeat' split
    all_goals exact ih _

/-- With single-segment target paths over a plain-object record, the
per-field loop always completes even with rollback enabled: all target
erasures succeed. -/
theorem convGo_isOk_of_simple_targets (cfg : ConvConfig)
    (hsimple : ∀ f ∈ cfg.fields, getPathArray f.targetPath = [f.targetPath]) :
    ∀ (l : List FieldMapping) (st : ConvState) (fs : List (String × JSValue)),
      st.doc = .vObj fs → (convGo cfg l st).isOk = true := by
  intro l
  induction l with
  | nil => intro st fs _; rfl
  | cons f rest ih =>
    intro st fs hdoc
    simp only [convGo]
    repeat' split
    all_goals first
      | rfl
      | exact ih _ fs hdoc
      | (rcases tryConvert_doc_vObj cfg f _ _ _ st.doc st.cache fs hdoc with ⟨gs, hgs⟩
         exact ih _ gs hgs)
      | (rename_i heq
         rcases rollbackAll_vObj cfg.fields hsimple fs with ⟨gs, hgs⟩
         rw [hdoc] at heq
         rw [hgs] at heq
         cases heq)

/-! ### Claim C8 -/

/-- Claim C8, counterexample.  The claim states the completion promise
never rejects because a field's conversion failed.  With rollback
enabled, a conversion failure triggers the rollback loop, which erases
EVERY configured target path; erasing the path `t.0.b` over the record
where `t = [5]` assigns a property on the primitive 5 and throws, and
that throw escapes the catch handler, so the orchestrator's promise
rejects as a consequence of the field's conversion failure. -/
theorem c8_rejection_counterexample :
    applyCurrencyConversion c8cfg c8doc = .error () := rfl

/-- Claim C8, amended.  The orchestrator's completion promise never
rejects because of a field's conversion failure provided rollback is
disabled, or the record is a plain object and every configured target
path is a single non-empty segment (so every rollback erasure
succeeds); in those cases all per-field failures are caught inside the
loop, observable only through the error context list and the absence of
the converted value. -/
theorem c8_never_rejects_amended (cfg : ConvConfig) (doc : JSValue)
    (h : cfg.rollbackOnError = false ∨
      ((∃ fs, doc = .vObj fs) ∧ ∀ f ∈ cfg.fields, getPathArray f.targetPath = [f.targetPath])) :
    ∃ st, applyCurrencyConversion cfg doc = .ok st := by
  have hok : (applyCurrencyConversion cfg doc).isOk = true := by
    cases h with
    | inl h1 => exact convGo_isOk_of_no_rollback cfg h1 cfg.fields _
    | inr h2 =>
      rcases h2 with ⟨⟨fs, hfs⟩, hsimple⟩
      exact convGo_isOk_of_simple_targets cfg hsimple cfg.fields _ fs hfs
  cases h2 : applyCurrencyConversion cfg doc with
  | ok st => exact ⟨st, rfl⟩
  | error e => rw [h2] at hok; simp [Except.isOk, Except.toBool] at hok

/-- Claim C8, witness for the amended theorem: a single-field scenario
whose resolver rejects, with rollback disabled, completes normally; the
failure is recorded in the error-context list and the target path holds
no value. -/
theorem c8_never_rejects_amended_witness :
    (∃ st, applyCurrencyConversion c8wcfg c8wdoc = .ok st) ∧
    (match applyCurrencyConversion c8wcfg c8wdoc with
      | .ok st => st.errors.length == 1 && (getNestedValue st.doc (getPathArray "t")).isNullish
      | .error _ => false) = true :=
  ⟨c8_never_rejects_amended c8wcfg c8wdoc (Or.inl rfl), rfl⟩
